import Mathlib

/-!
Shallow embedding of the MacroPad Plus firmware main module
(software/macropad_plus.c) and verification of its specification.

The firmware is a single-threaded polling loop over six keys, a rotary
encoder with push switch, and a NeoPixel strip of 18 pixels (key pixels
0..5, ring pixels 6..17).  All externally visible actions of the loop
(LED driver commands, user action callbacks, delays, watchdog resets)
are modelled as an ordered list of effects; the mutable program state
(the six key-last bits, the encoder switch bit and the uint8_t ring
phase) is threaded explicitly.  Machine integers are modelled as Nat
with explicit reductions mod 256 exactly where the C uint8_t arithmetic
wraps.
-/

/-- One externally visible action of the firmware, in program order. -/
inductive Effect where
  | writeHue (pixel hue bright : Nat)     -- NEO_writeHue(pixel, hue, bright)
  | clearPixel (pixel : Nat)              -- NEO_clearPixel(pixel)
  | neoUpdate                             -- NEO_update(): flush pixel buffer
  | keyPressed (k : Nat)                  -- KEYn_PRESSED() callback, k = n-1
  | keyReleased (k : Nat)                 -- KEYn_RELEASED() callback
  | keyHold (k : Nat)                     -- KEYn_HOLD() callback
  | encCwAction                           -- ENC_CW_ACTION()
  | encCwReleased                         -- ENC_CW_RELEASED()
  | encCcwAction                          -- ENC_CCW_ACTION()
  | encCcwReleased                        -- ENC_CCW_RELEASED()
  | encSwPressed                          -- ENC_SW_PRESSED()
  | encSwReleased                         -- ENC_SW_RELEASED()
  | delayMs (n : Nat)                     -- DLY_ms(n)
  | wdtReset                              -- WDT_reset()
  | waitEncA                              -- busy-wait until PIN_ENC_A reads high
  | sendByte (b : Nat)                    -- NEO_sendByte(b)
  | bootNow                               -- BOOT_now(): enter bootloader, never returns
  | hidInit                               -- HID_init()
  | wdtStart                              -- WDT_start()
  | neoInit                               -- NEO_init()
  | clkConfig                             -- CLK_config()
  | neoClearAll                           -- NEO_clearAll()
deriving DecidableEq

/-- Number of occurrences of an effect in a trace. -/
def countE (e : Effect) : List Effect → Nat
  | [] => 0
  | x :: xs => (if x = e then 1 else 0) + countE e xs

-- NeoPixel configuration constants from the source
def NEO_BRIGHT_KEYS : Nat := 2
def NEO_BRIGHT_ENC : Nat := 0
def NEO_KEY1 : Nat := 0
def NEO_KEY2 : Nat := 32
def NEO_KEY3 : Nat := 64
def NEO_KEY4 : Nat := 96
def NEO_KEY5 : Nat := 128
def NEO_KEY6 : Nat := 160

/-- Modelled from the spec: src/config.h is not among the sources; it
defines NEO_COUNT, the total number of NeoPixels.  The spec describes six
key pixels plus a 12-pixel ring (pixels 6..17 in the physical layout),
so NEO_COUNT = 18. -/
def NEO_COUNT : Nat := 18

/-- Body of the for-loop in NEO_encoder_update: writes `count` ring pixels
starting at pixel index `i` with hue `j`, stepping the (uint8_t) hue by 16
and wrapping it at 192 after each write. -/
def NEO_ringLoop (i j count : Nat) : List Effect :=
  match count with
  | 0 => []
  | c + 1 =>
    let j1 := (j + 16) % 256
    let j2 := if 192 ≤ j1 then j1 - 192 else j1
    Effect.writeHue i j NEO_BRIGHT_ENC :: NEO_ringLoop (i + 1) j2 c

/-- NEO_encoder_update: render ring pixels 6..17 from the current phase
(read from the global neoencoder, passed here explicitly), then flush.
The function only reads the global; it does not write it. -/
def NEO_encoder_update (neoencoder : Nat) : List Effect :=
  NEO_ringLoop 6 neoencoder 12 ++ [Effect.neoUpdate]

/-- NEO_encoder_cw: neoencoder += 8 (uint8_t), wrap at 192 by subtracting
192, then re-render.  Returns the new value of the global neoencoder and
the emitted effects. -/
def NEO_encoder_cw (neoencoder : Nat) : Nat × List Effect :=
  let n1 := (neoencoder + 8) % 256
  let n2 := if 192 ≤ n1 then n1 - 192 else n1
  (n2, NEO_encoder_update n2)

/-- NEO_encoder_ccw: neoencoder -= 8 (uint8_t, so underflow wraps mod
256), wrap at 192 by subtracting 64, then re-render. -/
def NEO_encoder_ccw (neoencoder : Nat) : Nat × List Effect :=
  let n1 := (neoencoder + 256 - 8) % 256
  let n2 := if 192 ≤ n1 then n1 - 64 else n1
  (n2, NEO_encoder_update n2)

/-- The ring phase after one clockwise rotation. -/
def cwPhase (n : Nat) : Nat := (NEO_encoder_cw n).1

/-- The ring phase after one counter-clockwise rotation. -/
def ccwPhase (n : Nat) : Nat := (NEO_encoder_ccw n).1

lemma cwPhase_eq (n : Nat) (h : n < 192) : cwPhase n = (n + 8) % 192 := by
  unfold cwPhase NEO_encoder_cw
  simp only
  split <;> omega

lemma ccwPhase_eq (n : Nat) (h : n < 192) : ccwPhase n = (n + 184) % 192 := by
  unfold ccwPhase NEO_encoder_ccw
  simp only
  split <;> omega

lemma cwPhase_lt (n : Nat) (h : n < 192) : cwPhase n < 192 := by
  rw [cwPhase_eq n h]; omega

lemma ccwPhase_lt (n : Nat) (h : n < 192) : ccwPhase n < 192 := by
  rw [ccwPhase_eq n h]; omega

lemma ccwPhase_cwPhase (n : Nat) (h : n < 192) : ccwPhase (cwPhase n) = n := by
  rw [ccwPhase_eq (cwPhase n) (cwPhase_lt n h), cwPhase_eq n h]
  omega

lemma cwPhase_iter (k : Nat) : cwPhase^[k] 0 = (8 * k) % 192 := by
  induction k with
  | zero => rfl
  | succ k ih =>
    rw [Function.iterate_succ_apply', ih,
      cwPhase_eq ((8 * k) % 192) (Nat.mod_lt _ (by omega))]
    omega

/-- C1: from phase 0, k clockwise rotations leave the ring phase at
(8k) mod 192, and k further counter-clockwise rotations return it to 0,
despite the asymmetric wrap code (cw subtracts 192 on overflow, ccw
subtracts 64 after the uint8_t underflow wrap). -/
theorem ring_rotation_roundtrip (k : Nat) :
    cwPhase^[k] 0 = (8 * k) % 192 ∧ ccwPhase^[k] (cwPhase^[k] 0) = 0 := by
  refine ⟨cwPhase_iter k, ?_⟩
  induction k with
  | zero => rfl
  | succ k ih =>
    rw [Function.iterate_succ_apply' cwPhase, Function.iterate_succ_apply ccwPhase,
      ccwPhase_cwPhase _ (by rw [cwPhase_iter]; exact Nat.mod_lt _ (by omega))]
    exact ih

/-!
## Main loop state and inputs
-/

/-- Mutable state of main(): the six key-last bits, the encoder switch
bit and the global uint8_t neoencoder. -/
structure MPState where
  key1last : Bool
  key2last : Bool
  key3last : Bool
  key4last : Bool
  key5last : Bool
  key6last : Bool
  isSwitchPressed : Bool
  neoencoder : Nat
deriving DecidableEq

/-- Raw pin levels sampled in one loop iteration (true = electrically
high; all inputs are active-low). -/
structure Pins where
  key1 : Bool
  key2 : Bool
  key3 : Bool
  key4 : Bool
  key5 : Bool
  key6 : Bool
  encA : Bool
  encB : Bool
  encSw : Bool
deriving DecidableEq

/-- State of main() at entry to the loop: all bits initialized to 0,
neoencoder initialized to 0. -/
def initState : MPState :=
  { key1last := false, key2last := false, key3last := false,
    key4last := false, key5last := false, key6last := false,
    isSwitchPressed := false, neoencoder := 0 }

/-- The stored last-state bit of key i (i = 0 .. 5 for keys 1 .. 6). -/
def MPState.keylast (s : MPState) : Fin 6 → Bool
  | ⟨0, _⟩ => s.key1last
  | ⟨1, _⟩ => s.key2last
  | ⟨2, _⟩ => s.key3last
  | ⟨3, _⟩ => s.key4last
  | ⟨4, _⟩ => s.key5last
  | ⟨5, _⟩ => s.key6last
  | ⟨n + 6, h⟩ => absurd h (by omega)

/-- The raw pin level of key i. -/
def Pins.key (p : Pins) : Fin 6 → Bool
  | ⟨0, _⟩ => p.key1
  | ⟨1, _⟩ => p.key2
  | ⟨2, _⟩ => p.key3
  | ⟨3, _⟩ => p.key4
  | ⟨4, _⟩ => p.key5
  | ⟨5, _⟩ => p.key6
  | ⟨n + 6, h⟩ => absurd h (by omega)

/-- The hue configured for key i (NEO_KEY1 .. NEO_KEY6). -/
def keyHue : Fin 6 → Nat
  | ⟨0, _⟩ => NEO_KEY1
  | ⟨1, _⟩ => NEO_KEY2
  | ⟨2, _⟩ => NEO_KEY3
  | ⟨3, _⟩ => NEO_KEY4
  | ⟨4, _⟩ => NEO_KEY5
  | ⟨5, _⟩ => NEO_KEY6
  | ⟨n + 6, h⟩ => absurd h (by omega)

/-- Handler for one key, the block repeated verbatim six times in main()
(lines 279-294 for key 1); key i uses NeoPixel i and hue keyHue i.
Takes the raw pin level and the stored last bit; returns the new stored
bit and the emitted effects. -/
def keyHandler (i : Fin 6) (raw last : Bool) : Bool × List Effect :=
  if (!raw) != last then
    let last1 := !last
    if last1 then
      (last1, [Effect.writeHue i.val (keyHue i) NEO_BRIGHT_KEYS,
               Effect.neoUpdate, Effect.keyPressed i.val])
    else
      (last1, [Effect.clearPixel i.val, Effect.neoUpdate,
               Effect.keyReleased i.val])
  else if last then
    (last, [Effect.keyHold i.val])
  else
    (last, [])

/-- The six key handlers of one loop iteration, applied to the stored
bits; returns the state with all six bits updated. -/
def stepKeys (s : MPState) (p : Pins) : MPState :=
  { s with
    key1last := (keyHandler 0 p.key1 s.key1last).1,
    key2last := (keyHandler 1 p.key2 s.key2last).1,
    key3last := (keyHandler 2 p.key3 s.key3last).1,
    key4last := (keyHandler 3 p.key4 s.key4last).1,
    key5last := (keyHandler 4 p.key5 s.key5last).1,
    key6last := (keyHandler 5 p.key6 s.key6last).1 }

/-- The effects emitted by the six key handlers of one loop iteration,
in program order. -/
def keysTrace (s : MPState) (p : Pins) : List Effect :=
  (keyHandler 0 p.key1 s.key1last).2 ++ (keyHandler 1 p.key2 s.key2last).2 ++
  (keyHandler 2 p.key3 s.key3last).2 ++ (keyHandler 3 p.key4 s.key4last).2 ++
  (keyHandler 4 p.key5 s.key5last).2 ++ (keyHandler 5 p.key6 s.key6last).2

/-- The rotary-encoder block of main() (lines 393-417): if phase A reads
low, classify direction by phase B, fire the directional action, rotate
and re-render the ring, debounce 5 ms, fire the directional released
callback, then busy-wait for phase A to return high; otherwise poll the
encoder switch by level comparison against isSwitchPressed. -/
def handleEncoder (s : MPState) (p : Pins) : MPState × List Effect :=
  if !p.encA then
    if p.encB then
      let r := NEO_encoder_cw s.neoencoder
      ({ s with neoencoder := r.1 },
        Effect.encCwAction :: r.2 ++
          [Effect.delayMs 5, Effect.encCwReleased, Effect.waitEncA])
    else
      let r := NEO_encoder_ccw s.neoencoder
      ({ s with neoencoder := r.1 },
        Effect.encCcwAction :: r.2 ++
          [Effect.delayMs 5, Effect.encCcwReleased, Effect.waitEncA])
  else
    if !s.isSwitchPressed && !p.encSw then
      ({ s with isSwitchPressed := true }, [Effect.encSwPressed])
    else if s.isSwitchPressed && p.encSw then
      ({ s with isSwitchPressed := false }, [Effect.encSwReleased])
    else
      (s, [])

/-- One iteration of the while(1) loop of main(): the six key handlers in
order, the encoder block, then DLY_ms(1) and WDT_reset(). -/
def loopIter (s : MPState) (p : Pins) : MPState × List Effect :=
  ((handleEncoder (stepKeys s p) p).1,
    keysTrace s p ++ (handleEncoder (stepKeys s p) p).2 ++
      [Effect.delayMs 1, Effect.wdtReset])

/-- Several loop iterations, one Pins snapshot per iteration. -/
def run (s : MPState) : List Pins → MPState × List Effect
  | [] => (s, [])
  | p :: ps =>
    let r := loopIter s p
    let r2 := run r.1 ps
    (r2.1, r.2 ++ r2.2)

/-- The setup part of main() before the loop (lines 256-272), as a
function of the raw encoder-switch pin level at boot.  Returns the
emitted effects and whether control reaches the RUN loop (BOOT_now()
never returns, so the bootloader branch does not). -/
def bootSequence (encSwRaw : Bool) : List Effect × Bool :=
  if !encSwRaw then
    ([Effect.neoInit, Effect.clkConfig, Effect.delayMs 10, Effect.neoClearAll]
      ++ List.replicate (3 * NEO_COUNT) (Effect.sendByte 127)
      ++ [Effect.bootNow], false)
  else
    ([Effect.neoInit, Effect.clkConfig, Effect.delayMs 10, Effect.neoClearAll,
      Effect.hidInit, Effect.delayMs 500, Effect.wdtStart]
      ++ NEO_encoder_update 0, true)

/-- Pins snapshot with every input idle: all keys released (high),
encoder phase A high, phase B high, switch released (high). -/
def idlePins : Pins :=
  { key1 := true, key2 := true, key3 := true, key4 := true, key5 := true,
    key6 := true, encA := true, encB := true, encSw := true }

/-- Idle pins except that key i reads low (pressed). -/
def pinsWithKeyLow : Fin 6 → Pins
  | ⟨0, _⟩ => { idlePins with key1 := false }
  | ⟨1, _⟩ => { idlePins with key2 := false }
  | ⟨2, _⟩ => { idlePins with key3 := false }
  | ⟨3, _⟩ => { idlePins with key4 := false }
  | ⟨4, _⟩ => { idlePins with key5 := false }
  | ⟨5, _⟩ => { idlePins with key6 := false }
  | ⟨n + 6, h⟩ => absurd h (by omega)

/-- Initial state except that key i is recorded as pressed. -/
def stateWithKeyPressed : Fin 6 → MPState
  | ⟨0, _⟩ => { initState with key1last := true }
  | ⟨1, _⟩ => { initState with key2last := true }
  | ⟨2, _⟩ => { initState with key3last := true }
  | ⟨3, _⟩ => { initState with key4last := true }
  | ⟨4, _⟩ => { initState with key5last := true }
  | ⟨5, _⟩ => { initState with key6last := true }
  | ⟨n + 6, h⟩ => absurd h (by omega)

/-!
## Helper lemmas about the key handlers and the loop
-/

lemma keyHandler_fst (i : Fin 6) (raw last : Bool) :
    (keyHandler i raw last).1 = !raw := by
  cases raw <;> cases last <;> rfl

lemma stepKeys_keylast (s : MPState) (p : Pins) (i : Fin 6) :
    (stepKeys s p).keylast i = (keyHandler i (p.key i) (s.keylast i)).1 := by
  fin_cases i <;> rfl

lemma handleEncoder_keylast (s : MPState) (p : Pins) (i : Fin 6) :
    ((handleEncoder s p).1).keylast i = s.keylast i := by
  unfold handleEncoder
  cases hA : p.encA <;> cases hB : p.encB <;> cases hS : s.isSwitchPressed <;>
    cases hSw : p.encSw <;> fin_cases i <;> rfl

lemma loopIter_keylast (s : MPState) (p : Pins) (i : Fin 6) :
    (loopIter s p).1.keylast i = !(p.key i) := by
  show ((handleEncoder (stepKeys s p) p).1).keylast i = !(p.key i)
  rw [handleEncoder_keylast, stepKeys_keylast, keyHandler_fst]

lemma keyHandler_snd_trans (i : Fin 6) (raw last : Bool)
    (h : ((!raw) != last) = true) :
    (keyHandler i raw last).2 =
      (if (!raw) then
         [Effect.writeHue i.val (keyHue i) NEO_BRIGHT_KEYS, Effect.neoUpdate,
          Effect.keyPressed i.val]
       else
         [Effect.clearPixel i.val, Effect.neoUpdate, Effect.keyReleased i.val]) := by
  cases raw <;> cases last <;> first | rfl | simp at h

lemma keyHandler_slice (s : MPState) (p : Pins) (i : Fin 6) :
    ∃ pre post, (loopIter s p).2 =
      pre ++ (keyHandler i (p.key i) (s.keylast i)).2 ++ post := by
  fin_cases i
  · exact ⟨[],
      (keyHandler 1 p.key2 s.key2last).2 ++ (keyHandler 2 p.key3 s.key3last).2 ++
        (keyHandler 3 p.key4 s.key4last).2 ++ (keyHandler 4 p.key5 s.key5last).2 ++
        (keyHandler 5 p.key6 s.key6last).2 ++ (handleEncoder (stepKeys s p) p).2 ++
        [Effect.delayMs 1, Effect.wdtReset],
      by simp [loopIter, keysTrace, Pins.key, MPState.keylast, List.append_assoc]⟩
  · exact ⟨(keyHandler 0 p.key1 s.key1last).2,
      (keyHandler 2 p.key3 s.key3last).2 ++ (keyHandler 3 p.key4 s.key4last).2 ++
        (keyHandler 4 p.key5 s.key5last).2 ++ (keyHandler 5 p.key6 s.key6last).2 ++
        (handleEncoder (stepKeys s p) p).2 ++ [Effect.delayMs 1, Effect.wdtReset],
      by simp [loopIter, keysTrace, Pins.key, MPState.keylast, List.append_assoc]⟩
  · exact ⟨(keyHandler 0 p.key1 s.key1last).2 ++ (keyHandler 1 p.key2 s.key2last).2,
      (keyHandler 3 p.key4 s.key4last).2 ++ (keyHandler 4 p.key5 s.key5last).2 ++
        (keyHandler 5 p.key6 s.key6last).2 ++ (handleEncoder (stepKeys s p) p).2 ++
        [Effect.delayMs 1, Effect.wdtReset],
      by simp [loopIter, keysTrace, Pins.key, MPState.keylast, List.append_assoc]⟩
  · exact ⟨(keyHandler 0 p.key1 s.key1last).2 ++ (keyHandler 1 p.key2 s.key2last).2 ++
        (keyHandler 2 p.key3 s.key3last).2,
      (keyHandler 4 p.key5 s.key5last).2 ++ (keyHandler 5 p.key6 s.key6last).2 ++
        (handleEncoder (stepKeys s p) p).2 ++ [Effect.delayMs 1, Effect.wdtReset],
      by simp [loopIter, keysTrace, Pins.key, MPState.keylast, List.append_assoc]⟩
  · exact ⟨(keyHandler 0 p.key1 s.key1last).2 ++ (keyHandler 1 p.key2 s.key2last).2 ++
        (keyHandler 2 p.key3 s.key3last).2 ++ (keyHandler 3 p.key4 s.key4last).2,
      (keyHandler 5 p.key6 s.key6last).2 ++ (handleEncoder (stepKeys s p) p).2 ++
        [Effect.delayMs 1, Effect.wdtReset],
      by simp [loopIter, keysTrace, Pins.key, MPState.keylast, List.append_assoc]⟩
  · exact ⟨(keyHandler 0 p.key1 s.key1last).2 ++ (keyHandler 1 p.key2 s.key2last).2 ++
        (keyHandler 2 p.key3 s.key3last).2 ++ (keyHandler 3 p.key4 s.key4last).2 ++
        (keyHandler 4 p.key5 s.key5last).2,
      (handleEncoder (stepKeys s p) p).2 ++ [Effect.delayMs 1, Effect.wdtReset],
      by simp [loopIter, keysTrace, Pins.key, MPState.keylast, List.append_assoc]⟩

/-!
## Claim theorems: key handling
-/

/-- C4: each loop iteration recomputes the logical key state as the
negation of the raw pin level; on a difference the stored flag becomes
the new logical state and the handler emits the pressed block (pixel at
the configured hue and brightness) or the released block (pixel
cleared); otherwise a hold event or nothing.  The handler's effects
occur inside the iteration trace, the rule is the same for every key,
and the outcome for key i depends only on key i's own pin. -/
theorem key_transition_rule (s : MPState) (p q : Pins) (i : Fin 6)
    (hpq : q.key i = p.key i) :
    (loopIter s p).1.keylast i = !(p.key i)
    ∧ (∃ pre post, (loopIter s p).2 =
        pre ++ (keyHandler i (p.key i) (s.keylast i)).2 ++ post)
    ∧ (keyHandler i (p.key i) (s.keylast i)).2 =
        (if ((!(p.key i)) != s.keylast i) then
           (if (!(p.key i)) then
              [Effect.writeHue i.val (keyHue i) NEO_BRIGHT_KEYS,
               Effect.neoUpdate, Effect.keyPressed i.val]
            else
              [Effect.clearPixel i.val, Effect.neoUpdate,
               Effect.keyReleased i.val])
         else if s.keylast i then [Effect.keyHold i.val] else [])
    ∧ (loopIter s q).1.keylast i = (loopIter s p).1.keylast i := by
  refine ⟨loopIter_keylast s p i, keyHandler_slice s p i, ?_, ?_⟩
  · cases hr : p.key i <;> cases hl : s.keylast i <;> rfl
  · rw [loopIter_keylast, loopIter_keylast, hpq]

/-- Witness for C4 at a concrete state and input. -/
theorem key_transition_rule_witness :
    (loopIter initState (pinsWithKeyLow 0)).1.keylast 0 = !((pinsWithKeyLow 0).key 0)
    ∧ (∃ pre post, (loopIter initState (pinsWithKeyLow 0)).2 =
        pre ++ (keyHandler 0 ((pinsWithKeyLow 0).key 0) (initState.keylast 0)).2 ++ post)
    ∧ (keyHandler 0 ((pinsWithKeyLow 0).key 0) (initState.keylast 0)).2 =
        (if ((!((pinsWithKeyLow 0).key 0)) != initState.keylast 0) then
           (if (!((pinsWithKeyLow 0).key 0)) then
              [Effect.writeHue (0 : Fin 6).val (keyHue 0) NEO_BRIGHT_KEYS,
               Effect.neoUpdate, Effect.keyPressed (0 : Fin 6).val]
            else
              [Effect.clearPixel (0 : Fin 6).val, Effect.neoUpdate,
               Effect.keyReleased (0 : Fin 6).val])
         else if initState.keylast 0 then [Effect.keyHold (0 : Fin 6).val] else [])
    ∧ (loopIter initState (pinsWithKeyLow 0)).1.keylast 0 =
        (loopIter initState (pinsWithKeyLow 0)).1.keylast 0 :=
  key_transition_rule initState (pinsWithKeyLow 0) (pinsWithKeyLow 0) 0 rfl

/-- C3: in every iteration where a key transitions, the LED pixel
command and the flush are emitted before the user action callback, on
both the press and the release transition. -/
theorem led_update_precedes_callback (s : MPState) (p : Pins) (i : Fin 6)
    (h : ((!(p.key i)) != s.keylast i) = true) :
    ∃ pre post, (loopIter s p).2 =
      pre ++ (if (!(p.key i)) then
                [Effect.writeHue i.val (keyHue i) NEO_BRIGHT_KEYS,
                 Effect.neoUpdate, Effect.keyPressed i.val]
              else
                [Effect.clearPixel i.val, Effect.neoUpdate,
                 Effect.keyReleased i.val]) ++ post := by
  obtain ⟨pre, post, hsl⟩ := keyHandler_slice s p i
  exact ⟨pre, post, by rw [hsl, keyHandler_snd_trans i _ _ h]⟩

/-- Witness for C3 at a concrete press transition of key 1. -/
theorem led_update_precedes_callback_witness :
    ∃ pre post, (loopIter initState (pinsWithKeyLow 0)).2 =
      pre ++ (if (!((pinsWithKeyLow 0).key 0)) then
                [Effect.writeHue (0 : Fin 6).val (keyHue 0) NEO_BRIGHT_KEYS,
                 Effect.neoUpdate, Effect.keyPressed (0 : Fin 6).val]
              else
                [Effect.clearPixel (0 : Fin 6).val, Effect.neoUpdate,
                 Effect.keyReleased (0 : Fin 6).val]) ++ post :=
  led_update_precedes_callback initState (pinsWithKeyLow 0) 0 (by decide)

/-- C10: in an iteration where a key's pin level implies no transition
and the key is idle (stored state released), the handler for that key
emits no effect at all (no LED command, no callback) and the stored
state is unchanged by the iteration. -/
theorem idle_key_no_effects (s : MPState) (p : Pins) (i : Fin 6)
    (h1 : p.key i = true) (h2 : s.keylast i = false) :
    (keyHandler i (p.key i) (s.keylast i)).2 = []
    ∧ (loopIter s p).1.keylast i = s.keylast i := by
  constructor
  · rw [h1, h2]; rfl
  · rw [loopIter_keylast, h1, h2]; rfl

/-- Witness for C10: key 1 idle on an idle iteration. -/
theorem idle_key_no_effects_witness :
    (keyHandler 0 (idlePins.key 0) (initState.keylast 0)).2 = []
    ∧ (loopIter initState idlePins).1.keylast 0 = initState.keylast 0 :=
  idle_key_no_effects initState idlePins 0 rfl rfl

/-!
## Claim theorems: the key-1 press-release scenario
-/

/-- The key-1 effects named by the scenario of C2: pixel-0 LED driver
commands and the key-1 press and release callbacks. -/
def relevantKey1Effect : Effect → Bool
  | Effect.writeHue 0 _ _ => true
  | Effect.clearPixel 0 => true
  | Effect.keyPressed 0 => true
  | Effect.keyReleased 0 => true
  | _ => false

/-- C2, counterexample: in the scenario (key 1 low for one iteration,
high the next, all else idle, stored state released) the claimed order
-- KEY1_PRESSED before the pixel-0 write and KEY1_RELEASED before the
pixel-0 clear -- is not the order the code produces. -/
theorem key1_claimed_order_false :
    ¬ (((run initState [pinsWithKeyLow 0, idlePins]).2.filter relevantKey1Effect) =
      [Effect.keyPressed 0, Effect.writeHue 0 0 2,
       Effect.keyReleased 0, Effect.clearPixel 0]) := by decide

/-- C2 as amended: in that scenario the code sets pixel 0 to hue 0 at
brightness 2, then fires KEY1_PRESSED, then clears pixel 0, then fires
KEY1_RELEASED -- the LED command precedes the callback on both edges. -/
theorem key1_press_release_trace_order :
    ((run initState [pinsWithKeyLow 0, idlePins]).2.filter relevantKey1Effect) =
      [Effect.writeHue 0 0 2, Effect.keyPressed 0,
       Effect.clearPixel 0, Effect.keyReleased 0] := by decide

/-!
## Counting lemmas
-/

lemma countE_append (e : Effect) (l1 l2 : List Effect) :
    countE e (l1 ++ l2) = countE e l1 + countE e l2 := by
  induction l1 with
  | nil => simp [countE]
  | cons x xs ih => simp [countE, ih]; omega

lemma run_count_replicate (s : MPState) (p : Pins) (t : List Effect)
    (hfix : loopIter s p = (s, t)) (e : Effect) (N : Nat) :
    countE e (run s (List.replicate N p)).2 = N * countE e t := by
  induction N with
  | zero => simp [run, countE]
  | succ N ih =>
    rw [List.replicate_succ]
    show countE e (run s (p :: List.replicate N p)).2 = _
    simp only [run, hfix]
    rw [countE_append, ih, Nat.succ_mul]
    omega

lemma hold_iter_fixed (i : Fin 6) :
    loopIter (stateWithKeyPressed i) (pinsWithKeyLow i) =
      (stateWithKeyPressed i,
        [Effect.keyHold i.val, Effect.delayMs 1, Effect.wdtReset]) := by
  fin_cases i <;> rfl

/-- C5: for every key, the press-then-release scenario yields exactly one
PRESSED and one RELEASED and zero HELD events; holding a key across N
consecutive iterations yields exactly N HELD events and no PRESSED or
RELEASED; and in any iteration with no transition while the stored state
is pressed, the key handler emits exactly the HELD callback. -/
theorem key_event_counts (i : Fin 6) (N : Nat) (s : MPState) (p : Pins)
    (h1 : (!(p.key i)) = s.keylast i) (h2 : s.keylast i = true) :
    countE (Effect.keyPressed i.val) (run initState [pinsWithKeyLow i, idlePins]).2 = 1
    ∧ countE (Effect.keyReleased i.val) (run initState [pinsWithKeyLow i, idlePins]).2 = 1
    ∧ countE (Effect.keyHold i.val) (run initState [pinsWithKeyLow i, idlePins]).2 = 0
    ∧ countE (Effect.keyHold i.val)
        (run (stateWithKeyPressed i) (List.replicate N (pinsWithKeyLow i))).2 = N
    ∧ countE (Effect.keyPressed i.val)
        (run (stateWithKeyPressed i) (List.replicate N (pinsWithKeyLow i))).2 = 0
    ∧ countE (Effect.keyReleased i.val)
        (run (stateWithKeyPressed i) (List.replicate N (pinsWithKeyLow i))).2 = 0
    ∧ (keyHandler i (p.key i) (s.keylast i)).2 = [Effect.keyHold i.val] := by
  have hraw : p.key i = false := by
    cases hpk : p.key i
    · rfl
    · rw [hpk, h2] at h1; simp at h1
  refine ⟨?_, ?_, ?_, ?_, ?_, ?_, ?_⟩
  · fin_cases i <;> rfl
  · fin_cases i <;> rfl
  · fin_cases i <;> rfl
  · rw [run_count_replicate _ _ _ (hold_iter_fixed i)]
    have hc : countE (Effect.keyHold i.val)
        [Effect.keyHold i.val, Effect.delayMs 1, Effect.wdtReset] = 1 := by
      simp [countE]
    rw [hc, Nat.mul_one]
  · rw [run_count_replicate _ _ _ (hold_iter_fixed i)]
    have hc : countE (Effect.keyPressed i.val)
        [Effect.keyHold i.val, Effect.delayMs 1, Effect.wdtReset] = 0 := by
      simp [countE]
    rw [hc, Nat.mul_zero]
  · rw [run_count_replicate _ _ _ (hold_iter_fixed i)]
    have hc : countE (Effect.keyReleased i.val)
        [Effect.keyHold i.val, Effect.delayMs 1, Effect.wdtReset] = 0 := by
      simp [countE]
    rw [hc, Nat.mul_zero]
  · rw [hraw, h2]; rfl

/-- Witness for C5: key 1, held for 3 iterations, in a hold iteration. -/
theorem key_event_counts_witness :
    countE (Effect.keyPressed (0 : Fin 6).val)
      (run initState [pinsWithKeyLow 0, idlePins]).2 = 1
    ∧ countE (Effect.keyReleased (0 : Fin 6).val)
      (run initState [pinsWithKeyLow 0, idlePins]).2 = 1
    ∧ countE (Effect.keyHold (0 : Fin 6).val)
      (run initState [pinsWithKeyLow 0, idlePins]).2 = 0
    ∧ countE (Effect.keyHold (0 : Fin 6).val)
      (run (stateWithKeyPressed 0) (List.replicate 3 (pinsWithKeyLow 0))).2 = 3
    ∧ countE (Effect.keyPressed (0 : Fin 6).val)
      (run (stateWithKeyPressed 0) (List.replicate 3 (pinsWithKeyLow 0))).2 = 0
    ∧ countE (Effect.keyReleased (0 : Fin 6).val)
      (run (stateWithKeyPressed 0) (List.replicate 3 (pinsWithKeyLow 0))).2 = 0
    ∧ (keyHandler 0 ((pinsWithKeyLow 0).key 0) ((stateWithKeyPressed 0).keylast 0)).2 =
        [Effect.keyHold (0 : Fin 6).val] :=
  key_event_counts 0 3 (stateWithKeyPressed 0) (pinsWithKeyLow 0) (by decide) (by decide)

/-!
## Claim theorems: encoder switch
-/

/-- Idle pins except that the encoder switch reads low (pressed) while
phase A stays high. -/
def swPins : Pins := { idlePins with encSw := false }

lemma keyHandler_no_swp (i : Fin 6) (raw last : Bool) :
    countE Effect.encSwPressed (keyHandler i raw last).2 = 0 := by
  cases raw <;> cases last <;> rfl

lemma keyHandler_no_swr (i : Fin 6) (raw last : Bool) :
    countE Effect.encSwReleased (keyHandler i raw last).2 = 0 := by
  cases raw <;> cases last <;> rfl

lemma keysTrace_no_swp (s : MPState) (p : Pins) :
    countE Effect.encSwPressed (keysTrace s p) = 0 := by
  simp [keysTrace, countE_append, keyHandler_no_swp]

lemma keysTrace_no_swr (s : MPState) (p : Pins) :
    countE Effect.encSwReleased (keysTrace s p) = 0 := by
  simp [keysTrace, countE_append, keyHandler_no_swr]

lemma handleEncoder_sw_trace (s : MPState) (p : Pins) (hA : p.encA = true) :
    (handleEncoder s p).2 =
      (if s.isSwitchPressed = false ∧ p.encSw = false then [Effect.encSwPressed]
       else if s.isSwitchPressed = true ∧ p.encSw = true then [Effect.encSwReleased]
       else []) := by
  cases hS : s.isSwitchPressed <;> cases hSw : p.encSw <;>
    simp [handleEncoder, hA, hS, hSw]

lemma handleEncoder_sw_flag (s : MPState) (p : Pins) (hA : p.encA = true) :
    ((handleEncoder s p).1).isSwitchPressed =
      (if s.isSwitchPressed = false ∧ p.encSw = false then true
       else if s.isSwitchPressed = true ∧ p.encSw = true then false
       else s.isSwitchPressed) := by
  cases hS : s.isSwitchPressed <;> cases hSw : p.encSw <;>
    simp [handleEncoder, hA, hS, hSw]

/-- C7: with phase A high, the switch is handled by level comparison
against the stored isPressed flag: ENC_SW_PRESSED fires exactly when the
flag is clear and the pin reads low, ENC_SW_RELEASED exactly when the
flag is set and the pin reads high, the flag is updated accordingly, and
there is no held event; in particular, the switch pin held low with
phase A high for three consecutive iterations fires exactly one
ENC_SW_PRESSED, on the first iteration and none on the following two. -/
theorem encoder_switch_level_logic (s : MPState) (p : Pins)
    (hA : p.encA = true) :
    countE Effect.encSwPressed (loopIter s p).2 =
      (if s.isSwitchPressed = false ∧ p.encSw = false then 1 else 0)
    ∧ countE Effect.encSwReleased (loopIter s p).2 =
      (if s.isSwitchPressed = true ∧ p.encSw = true then 1 else 0)
    ∧ (loopIter s p).1.isSwitchPressed =
      (if s.isSwitchPressed = false ∧ p.encSw = false then true
       else if s.isSwitchPressed = true ∧ p.encSw = true then false
       else s.isSwitchPressed)
    ∧ countE Effect.encSwPressed (run initState [swPins, swPins, swPins]).2 = 1
    ∧ countE Effect.encSwPressed (loopIter initState swPins).2 = 1
    ∧ countE Effect.encSwPressed
        (run (loopIter initState swPins).1 [swPins, swPins]).2 = 0 := by
  have hks : (stepKeys s p).isSwitchPressed = s.isSwitchPressed := rfl
  have htr : (loopIter s p).2 =
      keysTrace s p ++ (handleEncoder (stepKeys s p) p).2 ++
        [Effect.delayMs 1, Effect.wdtReset] := rfl
  refine ⟨?_, ?_, ?_, by decide, by decide, by decide⟩
  · rw [htr, countE_append, countE_append, keysTrace_no_swp,
      handleEncoder_sw_trace _ _ hA, hks]
    split_ifs <;> simp_all [countE]
  · rw [htr, countE_append, countE_append, keysTrace_no_swr,
      handleEncoder_sw_trace _ _ hA, hks]
    split_ifs <;> simp_all [countE]
  · show ((handleEncoder (stepKeys s p) p).1).isSwitchPressed = _
    rw [handleEncoder_sw_flag _ _ hA, hks]

/-- Witness for C7 at a concrete state and input. -/
theorem encoder_switch_level_logic_witness :
    countE Effect.encSwPressed (loopIter initState swPins).2 =
      (if initState.isSwitchPressed = false ∧ swPins.encSw = false then 1 else 0)
    ∧ countE Effect.encSwReleased (loopIter initState swPins).2 =
      (if initState.isSwitchPressed = true ∧ swPins.encSw = true then 1 else 0)
    ∧ (loopIter initState swPins).1.isSwitchPressed =
      (if initState.isSwitchPressed = false ∧ swPins.encSw = false then true
       else if initState.isSwitchPressed = true ∧ swPins.encSw = true then false
       else initState.isSwitchPressed)
    ∧ countE Effect.encSwPressed (run initState [swPins, swPins, swPins]).2 = 1
    ∧ countE Effect.encSwPressed (loopIter initState swPins).2 = 1
    ∧ countE Effect.encSwPressed
        (run (loopIter initState swPins).1 [swPins, swPins]).2 = 0 :=
  encoder_switch_level_logic initState swPins rfl

/-!
## Claim theorems: encoder rotation and ring phase
-/

lemma NEO_encoder_cw_pair (n : Nat) (h : n < 192) :
    NEO_encoder_cw n = ((n + 8) % 192, NEO_encoder_update ((n + 8) % 192)) := by
  have h0 : NEO_encoder_cw n = (cwPhase n, NEO_encoder_update (cwPhase n)) := rfl
  rw [h0, cwPhase_eq n h]

lemma NEO_encoder_ccw_pair (n : Nat) (h : n < 192) :
    NEO_encoder_ccw n = ((n + 184) % 192, NEO_encoder_update ((n + 184) % 192)) := by
  have h0 : NEO_encoder_ccw n = (ccwPhase n, NEO_encoder_update (ccwPhase n)) := rfl
  rw [h0, ccwPhase_eq n h]

lemma stepKeys_neoencoder (s : MPState) (p : Pins) :
    (stepKeys s p).neoencoder = s.neoencoder := rfl

/-- C6: when phase A reads low the direction is classified by the
sampled phase B level -- high means clockwise, low means
counter-clockwise -- and in either case the iteration emits, after the
key handlers, the directional ACTION callback, the re-rendered ring
rotated by 8 of 192 in the corresponding direction, a fixed 5 ms delay,
the directional RELEASED callback and the wait for the detent, and the
stored ring phase moves by 8 in that direction. -/
theorem encoder_direction_sequence (s : MPState) (p : Pins)
    (hA : p.encA = false) (hn : s.neoencoder < 192) :
    (p.encB = true →
      (loopIter s p).1.neoencoder = (s.neoencoder + 8) % 192
      ∧ (loopIter s p).2 =
          keysTrace s p ++
            (Effect.encCwAction ::
              (NEO_encoder_update ((s.neoencoder + 8) % 192) ++
                [Effect.delayMs 5, Effect.encCwReleased, Effect.waitEncA])) ++
            [Effect.delayMs 1, Effect.wdtReset])
    ∧ (p.encB = false →
      (loopIter s p).1.neoencoder = (s.neoencoder + 184) % 192
      ∧ (loopIter s p).2 =
          keysTrace s p ++
            (Effect.encCcwAction ::
              (NEO_encoder_update ((s.neoencoder + 184) % 192) ++
                [Effect.delayMs 5, Effect.encCcwReleased, Effect.waitEncA])) ++
            [Effect.delayMs 1, Effect.wdtReset]) := by
  constructor
  · intro hB
    have he : handleEncoder (stepKeys s p) p =
        ({ stepKeys s p with neoencoder := (s.neoencoder + 8) % 192 },
          Effect.encCwAction ::
            (NEO_encoder_update ((s.neoencoder + 8) % 192) ++
              [Effect.delayMs 5, Effect.encCwReleased, Effect.waitEncA])) := by
      simp [handleEncoder, hA, hB, stepKeys_neoencoder,
        NEO_encoder_cw_pair s.neoencoder hn]
    constructor
    · show ((handleEncoder (stepKeys s p) p).1).neoencoder = _
      rw [he]
    · show keysTrace s p ++ (handleEncoder (stepKeys s p) p).2 ++
        [Effect.delayMs 1, Effect.wdtReset] = _
      rw [he]
  · intro hB
    have he : handleEncoder (stepKeys s p) p =
        ({ stepKeys s p with neoencoder := (s.neoencoder + 184) % 192 },
          Effect.encCcwAction ::
            (NEO_encoder_update ((s.neoencoder + 184) % 192) ++
              [Effect.delayMs 5, Effect.encCcwReleased, Effect.waitEncA])) := by
      simp [handleEncoder, hA, hB, stepKeys_neoencoder,
        NEO_encoder_ccw_pair s.neoencoder hn]
    constructor
    · show ((handleEncoder (stepKeys s p) p).1).neoencoder = _
      rw [he]
    · show keysTrace s p ++ (handleEncoder (stepKeys s p) p).2 ++
        [Effect.delayMs 1, Effect.wdtReset] = _
      rw [he]

/-- Pins for a clockwise detent: phase A low, phase B high, keys idle. -/
def turnPins : Pins := { idlePins with encA := false }

/-- Witness for C6: a clockwise turn from the initial state. -/
theorem encoder_direction_sequence_witness :
    (turnPins.encB = true →
      (loopIter initState turnPins).1.neoencoder = (initState.neoencoder + 8) % 192
      ∧ (loopIter initState turnPins).2 =
          keysTrace initState turnPins ++
            (Effect.encCwAction ::
              (NEO_encoder_update ((initState.neoencoder + 8) % 192) ++
                [Effect.delayMs 5, Effect.encCwReleased, Effect.waitEncA])) ++
            [Effect.delayMs 1, Effect.wdtReset])
    ∧ (turnPins.encB = false →
      (loopIter initState turnPins).1.neoencoder = (initState.neoencoder + 184) % 192
      ∧ (loopIter initState turnPins).2 =
          keysTrace initState turnPins ++
            (Effect.encCcwAction ::
              (NEO_encoder_update ((initState.neoencoder + 184) % 192) ++
                [Effect.delayMs 5, Effect.encCcwReleased, Effect.waitEncA])) ++
            [Effect.delayMs 1, Effect.wdtReset]) :=
  encoder_direction_sequence initState turnPins rfl (by decide)

lemma handleEncoder_neoencoder (s : MPState) (p : Pins) :
    ((handleEncoder s p).1).neoencoder =
      (if p.encA = false then
         (if p.encB then cwPhase s.neoencoder else ccwPhase s.neoencoder)
       else s.neoencoder) := by
  cases hA : p.encA <;> cases hB : p.encB <;> cases hS : s.isSwitchPressed <;>
    cases hSw : p.encSw <;>
    simp [handleEncoder, cwPhase, ccwPhase, hA, hB, hS, hSw]

/-- C8: the ring phase starts at 0 and stays in 0..191: both rotation
operations keep it below 192, a full loop iteration keeps it below 192,
and an iteration in which the encoder does not turn (phase A high)
leaves it unchanged -- only the two rotation operations mutate it. -/
theorem ring_phase_invariant (s : MPState) (p : Pins) (n : Nat)
    (hn : n < 192) (hs : s.neoencoder < 192) :
    initState.neoencoder = 0
    ∧ (NEO_encoder_cw n).1 < 192
    ∧ (NEO_encoder_ccw n).1 < 192
    ∧ (loopIter s p).1.neoencoder < 192
    ∧ (p.encA = true → (loopIter s p).1.neoencoder = s.neoencoder) := by
  have hloop : (loopIter s p).1.neoencoder =
      (if p.encA = false then
         (if p.encB then cwPhase s.neoencoder else ccwPhase s.neoencoder)
       else s.neoencoder) := by
    show ((handleEncoder (stepKeys s p) p).1).neoencoder = _
    rw [handleEncoder_neoencoder, stepKeys_neoencoder]
  refine ⟨rfl, cwPhase_lt n hn, ccwPhase_lt n hn, ?_, ?_⟩
  · rw [hloop]
    split_ifs with h1 h2
    · exact cwPhase_lt _ hs
    · exact ccwPhase_lt _ hs
    · exact hs
  · intro hA
    rw [hloop]
    simp [hA]

/-- Witness for C8 at a concrete state, input and phase. -/
theorem ring_phase_invariant_witness :
    initState.neoencoder = 0
    ∧ (NEO_encoder_cw 184).1 < 192
    ∧ (NEO_encoder_ccw 184).1 < 192
    ∧ (loopIter initState idlePins).1.neoencoder < 192
    ∧ (idlePins.encA = true →
        (loopIter initState idlePins).1.neoencoder = initState.neoencoder) :=
  ring_phase_invariant initState idlePins 184 (by decide) (by decide)

/-!
## Claim theorem: boot / firmware update
-/

/-- C9: if the encoder switch pin reads low (pressed) at power-on, then
after clearing all pixels the boot code sends 3 * NEO_COUNT bytes of
value 127 (all pixels full white), the last emitted effect is the
bootloader entry which never returns, HID initialization never happens
and the RUN loop is never reached; with the pin high, HID is initialized
once and the RUN loop is reached. -/
theorem boot_firmware_update :
    (bootSequence false).2 = false
    ∧ countE Effect.hidInit (bootSequence false).1 = 0
    ∧ countE (Effect.sendByte 127) (bootSequence false).1 = 3 * NEO_COUNT
    ∧ (bootSequence false).1.getLast? = some Effect.bootNow
    ∧ countE Effect.neoClearAll (bootSequence false).1 = 1
    ∧ (bootSequence true).2 = true
    ∧ countE Effect.hidInit (bootSequence true).1 = 1 := by decide
